import Mathlib

/-!
Shallow embedding of the vote admission and replication subsystem of the
distributed voting coordinator (server.py), together with proofs of the
specification claims about it.  Python dictionaries holding voter records
become a structure, the in-memory voter table becomes a list, the heap-based
vote queue becomes a list popped at its lexicographically minimal key, and
stateful methods become pure state-passing functions.  Replication outcomes
(the boolean returned by a replica, or a raised transport exception) are
passed in as explicit parameters.
-/

namespace DistVote

/-- Embeds one entry of voters_db: a dict with keys id, name, has_voted, vote. -/
structure Voter where
  id : Nat
  name : String
  has_voted : Bool
  vote : Option String
deriving Repr, DecidableEq

/-- Embeds the initial voters_db array built in VotingServer.__init__. -/
def init_voters_db : List Voter :=
  [⟨1, "Alice", false, none⟩, ⟨2, "Bob", false, none⟩, ⟨3, "Charlie", false, none⟩,
   ⟨4, "Diana", false, none⟩, ⟨5, "Eve", false, none⟩, ⟨6, "Frank", false, none⟩,
   ⟨7, "Grace", false, none⟩, ⟨8, "Henry", false, none⟩, ⟨9, "Ivy", false, none⟩,
   ⟨10, "Jack", false, none⟩]

/-- Embeds the candidates list built in VotingServer.__init__. -/
def init_candidates : List String :=
  ["Candidate A", "Candidate B", "Candidate C", "Candidate D", "Candidate E",
   "Candidate F", "Candidate G", "Candidate H", "Candidate I", "Candidate J"]

/-- Embeds the max_concurrent_votes field (default 5). -/
def max_concurrent_votes : Nat := 5

/-! ### Logical clock -/

/-- Embeds the body of the method that increments the Lamport clock under
clock_lock and returns the new value.  The new clock equals the returned
value, so a single Nat serves as both. -/
def increment_lamport_clock (clock : Nat) : Nat :=
  clock + 1

/-- Embeds the body of the method that merges a received timestamp into the
Lamport clock under clock_lock: the clock becomes max(local, received) + 1
and that value is returned. -/
def update_lamport_clock (clock received : Nat) : Nat :=
  max clock received + 1

/-- One serialized call against the Lamport clock: a local tick or an
observation of a received timestamp. -/
inductive ClockOp where
  | tick : ClockOp
  | observe : Nat → ClockOp
deriving Repr, DecidableEq

/-- Returned values of a serialized sequence of clock calls, threading the
clock counter from left to right. -/
def run_clock : Nat → List ClockOp → List Nat
  | _, [] => []
  | c, ClockOp.tick :: ops =>
      increment_lamport_clock c :: run_clock (increment_lamport_clock c) ops
  | c, ClockOp.observe t :: ops =>
      update_lamport_clock c t :: run_clock (update_lamport_clock c t) ops

/-! ### Replicator -/

/-- Outcome of one ReplicateUpdate call to a replica: none models a raised
transport exception (caught by the per-endpoint handler), some b models a
normal return of boolean b. -/
abbrev ReplicaOutcome := Option Bool

/-- Embeds the for-loop of the replication method: given the configured
replica ports paired with the outcome each delivery attempt would produce,
returns the count of successful replicas together with the list of ports
that were actually attempted, in order.  An exception at one port is caught
and does not stop the loop. -/
def replicate_loop : List (Nat × ReplicaOutcome) → Nat × List Nat
  | [] => (0, [])
  | (port, outcome) :: rest =>
      let r := replicate_loop rest
      ((if outcome = some true then 1 else 0) + r.1, port :: r.2)

/-- Embeds the replication method result: success when at least one replica
acknowledged (the successful_replicas count is at least 1). -/
def replicate_to_replicas (replicas : List (Nat × ReplicaOutcome)) : Bool :=
  decide (1 ≤ (replicate_loop replicas).1)

/-! ### Vote admission queue -/

/-- Embeds the vote_request 4-tuple (session_id, candidate, timestamp,
click_time). -/
structure VoteRequest where
  session_id : String
  candidate : String
  timestamp : Nat
  click_time : Nat
deriving Repr, DecidableEq

/-- Embeds a heap entry (timestamp, voter_id, counter, vote_request). -/
structure QueueEntry where
  timestamp : Nat
  voter_id : Nat
  counter : Nat
  request : VoteRequest
deriving Repr, DecidableEq

/-- Strict lexicographic order on the (timestamp, voter_id, counter) key of a
heap entry, matching Python tuple comparison on heap entries (the fourth
tuple component is never reached because insertion counters are distinct). -/
def key_lt (a b : QueueEntry) : Prop :=
  a.timestamp < b.timestamp ∨
    (a.timestamp = b.timestamp ∧
      (a.voter_id < b.voter_id ∨ (a.voter_id = b.voter_id ∧ a.counter < b.counter)))

instance (a b : QueueEntry) : Decidable (key_lt a b) := by
  unfold key_lt; infer_instance

/-- Minimal entry of a nonempty collection under key_lt, scanning left to
right and replacing the current minimum only on strict decrease. -/
def min_entry (e : QueueEntry) : List QueueEntry → QueueEntry
  | [] => e
  | f :: rest => if key_lt f e then min_entry f rest else min_entry e rest

/-- Embeds heapq.heappop on the vote queue viewed as a multiset: removes and
returns an entry whose key is minimal, or none when the queue is empty. -/
def heap_pop : List QueueEntry → Option (QueueEntry × List QueueEntry)
  | [] => none
  | e :: rest => some (min_entry e rest, (e :: rest).erase (min_entry e rest))

/-! ### Registry section of the admission task -/

/-- Embeds the structured result dicts with keys success and message. -/
structure RpcResult where
  success : Bool
  message : String
deriving Repr, DecidableEq

/-- Embeds the linear scan that locates a voter record matching both the
session id and the session name. -/
def find_voter (vid : Nat) (vname : String) (db : List Voter) : Option Voter :=
  db.find? (fun v => decide (v.id = vid ∧ v.name = vname))

/-- Embeds the section of the admission task executed under db_lock: locate
the voter by id and name, fail on a missing record or an already set
has_voted flag without mutating the registry, otherwise set the vote and
either keep it (replication succeeded) or roll it back to has_voted = false
and vote = none (replication failed).  The replication outcome is passed in
as replication_ok. -/
def process_vote_db (vid : Nat) (vname : String) (candidate : String)
    (replication_ok : Bool) : List Voter → RpcResult × List Voter
  | [] => (⟨false, "Voter not found"⟩, [])
  | v :: rest =>
      if v.id = vid ∧ v.name = vname then
        if v.has_voted then (⟨false, "Already voted"⟩, v :: rest)
        else if replication_ok then
          (⟨true, "Vote recorded successfully"⟩,
            { v with has_voted := true, vote := some candidate } :: rest)
        else
          (⟨false, "Replication failed"⟩,
            { v with has_voted := false, vote := none } :: rest)
      else
        let r := process_vote_db vid vname candidate replication_ok rest
        (r.1, v :: r.2)

/-! ### Registration -/

/-- Embeds the structured result of the Register RPC (success, id, message);
the id key is absent on the replication-failure reply, modelled by none. -/
structure RegisterResult where
  success : Bool
  id : Option Nat
  message : String
deriving Repr, DecidableEq

/-- Embeds the linear scan that checks whether a voter with the given name
already exists. -/
def find_by_name (vname : String) (db : List Voter) : Option Voter :=
  db.find? (fun v => decide (v.name = vname))

/-- Embeds the Register RPC body under db_lock: an existing name returns the
existing id with no mutation; a new name is appended with id len(db) + 1 and
has_voted = false, and the append is popped again when replication fails.
The replication outcome is passed in as replication_ok; the Lamport tick at
entry does not touch the registry and is omitted here. -/
def Register (vname : String) (replication_ok : Bool) (db : List Voter) :
    RegisterResult × List Voter :=
  match find_by_name vname db with
  | some v => (⟨true, some v.id, "Voter already registered"⟩, db)
  | none =>
      if replication_ok then
        (⟨true, some (db.length + 1), "Registration successful"⟩,
          db ++ [⟨db.length + 1, vname, false, none⟩])
      else
        (⟨false, none, "Registration failed due to replication error"⟩, db)

/-! ### Publishing results -/

/-- Embeds the vote-collection loop of PublishResults: a voter contributes
its vote when has_voted is set and the vote value is truthy in Python terms
(not None and not the empty string). -/
def collect_votes : List Voter → List String
  | [] => []
  | v :: rest =>
      match v.vote with
      | some s =>
          if v.has_voted = true ∧ s ≠ "" then s :: collect_votes rest
          else collect_votes rest
      | none => collect_votes rest

/-- Embeds PublishResults: while voting is active it returns the structured
failure dict; otherwise it builds the local votes list and falls off the end
of the function body, which in Python yields None — modelled as a none first
component.  The second component records the votes list the body built. -/
def PublishResults (voting_active : Bool) (db : List Voter) :
    Option RpcResult × List String :=
  if voting_active then
    (some ⟨false, "Cannot publish results while voting is active"⟩, [])
  else
    (none, collect_votes db)

/-! ### Scheduler concurrency counters -/

/-- Abstraction of the scheduler and admission-task counters: queued counts
heap entries for distinct idle voters, spawned counts admission threads that
have been started but have not yet executed their active_votes increment,
and active_votes is the shared counter the scheduler loop reads. -/
structure SchedState where
  queued : Nat
  spawned : Nat
  active_votes : Nat
deriving Repr, DecidableEq

/-- Atomic events of the scheduler loop and the admission tasks:
scheduler_spawn is one loop iteration that sees active_votes below the
budget, pops an entry and starts a thread; task_enter is a started thread
executing its active_votes increment under vote_lock; task_exit is the
final decrement under vote_lock when a task finishes. -/
inductive SchedOp where
  | scheduler_spawn : SchedOp
  | task_enter : SchedOp
  | task_exit : SchedOp
deriving Repr, DecidableEq

/-- One interleaving step of the scheduler loop and the admission tasks; an
event whose guard does not hold leaves the state unchanged. -/
def sched_step (s : SchedState) : SchedOp → SchedState
  | SchedOp.scheduler_spawn =>
      if s.active_votes < max_concurrent_votes ∧ 0 < s.queued then
        { s with queued := s.queued - 1, spawned := s.spawned + 1 }
      else s
  | SchedOp.task_enter =>
      if 0 < s.spawned then
        { s with spawned := s.spawned - 1, active_votes := s.active_votes + 1 }
      else s
  | SchedOp.task_exit =>
      if 0 < s.active_votes then { s with active_votes := s.active_votes - 1 }
      else s

/-- Runs an interleaving of scheduler and task events from a starting
state. -/
def sched_run (s : SchedState) (ops : List SchedOp) : SchedState :=
  ops.foldl sched_step s

/-- Number of admission tasks outstanding: started by the scheduler and not
yet finished. -/
def outstanding_tasks (s : SchedState) : Nat :=
  s.spawned + s.active_votes

/-! ### Session identifiers -/

/-- Decimal digit characters of a natural number, most significant digit
first, as Python renders an int inside an f-string.  The fuel-based helper
mirrors repeated division by 10. -/
def nat_chars_aux : Nat → Nat → List Char → List Char
  | 0, _, acc => acc
  | fuel + 1, n, acc =>
      if n < 10 then Nat.digitChar n :: acc
      else nat_chars_aux fuel (n / 10) (Nat.digitChar (n % 10) :: acc)

/-- Decimal rendering of a natural number as a character list. -/
def nat_chars (n : Nat) : List Char :=
  nat_chars_aux (n + 1) n []

/-- Embeds the session id built by Login: the f-string interpolation of the
voter id and the integer clock second between fixed separators. -/
def session_id_string (voter_id now : Nat) : String :=
  "session_" ++ String.mk (nat_chars voter_id) ++ "_" ++ String.mk (nat_chars now)

/-! ### Whole-coordinator state machine -/

/-- Embeds one active_sessions entry: the session id key mapped to the
voter id and name stored at login (the login time is irrelevant to the
registry and omitted). -/
structure Session where
  session_id : String
  voter_id : Nat
  voter_name : String
deriving Repr, DecidableEq

/-- Embeds the session lookup active_sessions.get(session_id). -/
def lookup_session (sid : String) (sessions : List Session) : Option Session :=
  sessions.find? (fun p => decide (p.session_id = sid))

/-- Embeds the mutable coordinator state touched by registration, login,
vote submission and the vote queue processor. -/
structure ServerState where
  voters_db : List Voter
  candidates : List String
  voting_active : Bool
  voting_deadline : Option Nat
  vote_queue : List QueueEntry
  vote_counter : Nat
  sessions : List Session
  lamport_clock : Nat
deriving Repr, DecidableEq

/-- Embeds the state built by VotingServer.__init__. -/
def init_state : ServerState :=
  { voters_db := init_voters_db
    candidates := init_candidates
    voting_active := false
    voting_deadline := none
    vote_queue := []
    vote_counter := 0
    sessions := []
    lamport_clock := 0 }

/-- Serialized operations against the coordinator: the RPC entry points that
touch ballot state, plus the two scheduler actions (admitting the minimal
queue entry through the whole admission task, or requeueing it with a fresh
counter when its voter is marked in progress).  Replication outcomes are
passed in as booleans. -/
inductive ServerOp where
  | register (vname : String) (rep : Bool) : ServerOp
  | login (vname : String) (vid : Nat) (now : Nat) : ServerOp
  | vote (sid : String) (cand : String) (ts : Nat) (ct : Nat) : ServerOp
  | start_vote : ServerOp
  | stop_vote : ServerOp
  | set_timer (t : Nat) : ServerOp
  | process_next (rep : Bool) : ServerOp
  | requeue_next : ServerOp
deriving Repr, DecidableEq

/-- Embeds the admission task applied to a popped queue entry on a state
whose queue already had the entry removed: validate the session, the
voting-active flag and the deadline, merge the request timestamp into the
Lamport clock, then run the registry section. -/
def admit_vote (e : QueueEntry) (rep : Bool) (s : ServerState) : ServerState :=
  match lookup_session e.request.session_id s.sessions with
  | none => s
  | some sess =>
      if s.voting_active = false then s
      else
        match s.voting_deadline with
        | some d =>
            if d < e.request.click_time then s
            else
              let s1 := { s with
                lamport_clock := update_lamport_clock s.lamport_clock e.request.timestamp }
              { s1 with
                voters_db := (process_vote_db sess.voter_id sess.voter_name
                  e.request.candidate rep s1.voters_db).2 }
        | none =>
            let s1 := { s with
              lamport_clock := update_lamport_clock s.lamport_clock e.request.timestamp }
            { s1 with
              voters_db := (process_vote_db sess.voter_id sess.voter_name
                e.request.candidate rep s1.voters_db).2 }

/-- One serialized coordinator operation, mirroring the corresponding method
body in the source. -/
def server_step (s : ServerState) : ServerOp → ServerState
  | ServerOp.register vname rep =>
      let s1 := { s with lamport_clock := increment_lamport_clock s.lamport_clock }
      { s1 with voters_db := (Register vname rep s1.voters_db).2 }
  | ServerOp.login vname vid now =>
      let s1 := { s with lamport_clock := increment_lamport_clock s.lamport_clock }
      match find_voter vid vname s1.voters_db with
      | none => s1
      | some _ =>
          { s1 with sessions := ⟨session_id_string vid now, vid, vname⟩ :: s1.sessions }
  | ServerOp.vote sid cand ts ct =>
      let s1 := { s with lamport_clock := increment_lamport_clock s.lamport_clock }
      if cand ∈ s1.candidates then
        match lookup_session sid s1.sessions with
        | none => s1
        | some sess =>
            { s1 with
              vote_queue := ⟨ts, sess.voter_id, s1.vote_counter, ⟨sid, cand, ts, ct⟩⟩ ::
                s1.vote_queue
              vote_counter := s1.vote_counter + 1 }
      else s1
  | ServerOp.start_vote => { s with voting_active := true }
  | ServerOp.stop_vote => { s with voting_active := false }
  | ServerOp.set_timer t => { s with voting_deadline := some t }
  | ServerOp.process_next rep =>
      match heap_pop s.vote_queue with
      | none => s
      | some (e, rest) => admit_vote e rep { s with vote_queue := rest }
  | ServerOp.requeue_next =>
      match heap_pop s.vote_queue with
      | none => s
      | some (e, rest) =>
          match lookup_session e.request.session_id s.sessions with
          | none => { s with vote_queue := rest }
          | some sess =>
              { s with
                vote_queue := ⟨e.request.timestamp, sess.voter_id, s.vote_counter,
                  e.request⟩ :: rest
                vote_counter := s.vote_counter + 1 }

/-- Runs a serialized sequence of coordinator operations from a starting
state. -/
def server_run (s : ServerState) (ops : List ServerOp) : ServerState :=
  ops.foldl server_step s

/-- Ballot-state invariant for one voter record: a set has_voted flag means
the chosen candidate is a member of the candidate list. -/
def VoterOk (cands : List String) (v : Voter) : Prop :=
  v.has_voted = true → ∃ c, v.vote = some c ∧ c ∈ cands

/-- Coordinator invariant: every voter record satisfies the ballot-state
invariant and every queued request carries a validated candidate. -/
def Inv (s : ServerState) : Prop :=
  (∀ v ∈ s.voters_db, VoterOk s.candidates v) ∧
  ∀ e ∈ s.vote_queue, e.request.candidate ∈ s.candidates

/-- Sample operation sequence: Alice logs in at second 0, voting starts, she
submits a vote for Candidate A, and the scheduler admits it with replication
succeeding. -/
def demo_ops : List ServerOp :=
  [ServerOp.login "Alice" 1 0, ServerOp.start_vote,
   ServerOp.vote "session_1_0" "Candidate A" 1 0, ServerOp.process_next true]

/-! ### Concrete sample data for witnesses -/

/-- Sample queue entry: a vote by voter 1 stamped with logical timestamp 5,
enqueued first. -/
def qe_alice : QueueEntry := ⟨5, 1, 0, ⟨"session_1_0", "Candidate A", 5, 0⟩⟩

/-- Sample queue entry: a vote by voter 2 stamped with logical timestamp 3,
enqueued second. -/
def qe_bob : QueueEntry := ⟨3, 2, 1, ⟨"session_2_0", "Candidate B", 3, 0⟩⟩

/-- Sample queue holding the two sample entries in enqueue order. -/
def demo_queue : List QueueEntry := [qe_alice, qe_bob]

/-- Sample registry in which voter 1 has already voted. -/
def voted_db : List Voter :=
  [⟨1, "Alice", true, some "Candidate A"⟩, ⟨2, "Bob", false, none⟩]

/-- Sample record of voter 1 after a committed vote. -/
def alice_voted : Voter := ⟨1, "Alice", true, some "Candidate A"⟩

/-! ### Helper lemmas about the queue order -/

theorem key_lt_irrefl (e : QueueEntry) : ¬ key_lt e e := by
  simp [key_lt]

theorem key_lt_trans {a b c : QueueEntry} (h1 : key_lt a b) (h2 : key_lt b c) :
    key_lt a c := by
  unfold key_lt at h1 h2 ⊢; omega

theorem key_lt_of_not_lt_of_lt {a b c : QueueEntry} (h1 : ¬ key_lt b a)
    (h2 : key_lt b c) : key_lt a c := by
  unfold key_lt at h1 h2 ⊢; omega

theorem min_entry_mem (l : List QueueEntry) :
    ∀ e : QueueEntry, min_entry e l ∈ e :: l := by
  induction l with
  | nil => intro e; simp [min_entry]
  | cons f rest ih =>
      intro e
      rw [min_entry]
      split
      · have h := ih f
        simp [List.mem_cons] at h ⊢
        tauto
      · have h := ih e
        simp [List.mem_cons] at h ⊢
        tauto

theorem min_entry_min (l : List QueueEntry) :
    ∀ e x : QueueEntry, x ∈ e :: l → ¬ key_lt x (min_entry e l) := by
  induction l with
  | nil =>
      intro e x hx
      simp [List.mem_cons] at hx
      subst hx
      simpa [min_entry] using key_lt_irrefl x
  | cons f rest ih =>
      intro e x hx
      rw [min_entry]
      obtain h | h := List.mem_cons.mp hx
      · subst h
        split
        · rename_i hfe
          intro hcon
          exact ih f f (List.mem_cons_self f rest) (key_lt_trans hfe hcon)
        · exact ih x x (List.mem_cons_self x rest)
      · obtain h2 | h2 := List.mem_cons.mp h
        · subst h2
          split
          · exact ih x x (List.mem_cons_self x rest)
          · rename_i hfe
            intro hcon
            exact ih e e (List.mem_cons_self e rest) (key_lt_of_not_lt_of_lt hfe hcon)
        · split
          · exact ih f x (List.mem_cons_of_mem f h2)
          · exact ih e x (List.mem_cons_of_mem e h2)

/-! ### Claim C1 -/

/-- Claim C1: the background scheduler pops an entry that is minimal in the
lexicographic order (logicalTimestamp, voterId, insertionCounter) — against
every entry of the queue, the popped entry has a timestamp no larger; among
equal timestamps a voter id no larger; and among equal (timestamp, voterId)
pairs an insertion counter no larger.  In particular an entry with a strictly
smaller timestamp is admitted first regardless of enqueue order. -/
theorem C1_scheduler_pops_lex_min (q rest : List QueueEntry) (p x : QueueEntry)
    (hpop : heap_pop q = some (p, rest)) (hx : x ∈ q) :
    p.timestamp ≤ x.timestamp ∧
    (p.timestamp = x.timestamp → p.voter_id ≤ x.voter_id) ∧
    (p.timestamp = x.timestamp → p.voter_id = x.voter_id → p.counter ≤ x.counter) := by
  cases q with
  | nil => simp [heap_pop] at hpop
  | cons e l =>
      rw [heap_pop] at hpop
      have hp : p = min_entry e l := by
        have := congrArg (fun o => Option.map Prod.fst o) hpop
        simpa using this.symm
      subst hp
      have h := min_entry_min l e x hx
      unfold key_lt at h
      refine ⟨by omega, by omega, by omega⟩

/-- Witness for claim C1: with Alice enqueued first at timestamp 5 and Bob
second at timestamp 3, the scheduler pops Bob and his key is lexicographically
no larger than Alice's. -/
theorem C1_scheduler_pops_lex_min_witness :
    qe_bob.timestamp ≤ qe_alice.timestamp ∧
    (qe_bob.timestamp = qe_alice.timestamp → qe_bob.voter_id ≤ qe_alice.voter_id) ∧
    (qe_bob.timestamp = qe_alice.timestamp → qe_bob.voter_id = qe_alice.voter_id →
      qe_bob.counter ≤ qe_alice.counter) :=
  C1_scheduler_pops_lex_min demo_queue [qe_alice] qe_bob qe_alice (by decide) (by decide)

/-! ### Claim C4 -/

/-- Claim C4 is violated by the code: the scheduler loop checks active_votes
against the budget, but the increment of active_votes is performed by the
spawned admission task itself.  In the interleaving in which the scheduler
runs six pop-and-spawn iterations before any spawned thread executes its
increment, six admission tasks are outstanding, exceeding the budget of 5. -/
theorem C4_budget_exceeded :
    outstanding_tasks (sched_run ⟨6, 0, 0⟩ (List.replicate 6 SchedOp.scheduler_spawn)) = 6 ∧
    max_concurrent_votes < 6 := by
  decide

/-! ### Claim C5 -/

/-- Claim C5: the replication loop attempts delivery to every configured
endpoint in order, regardless of earlier failures (each transport error is
caught), and it reports success exactly when at least one replica returned a
truthy acknowledgment. -/
theorem C5_replicator_attempts_all (replicas : List (Nat × ReplicaOutcome)) :
    (replicate_loop replicas).2 = replicas.map Prod.fst ∧
    (replicate_to_replicas replicas = true ↔ ∃ r ∈ replicas, r.2 = some true) := by
  induction replicas with
  | nil => simp [replicate_loop, replicate_to_replicas]
  | cons hd tl ih =>
      obtain ⟨p, o⟩ := hd
      constructor
      · simp [replicate_loop, ih.1]
      · have h2 := ih.2
        simp [replicate_to_replicas, replicate_loop] at h2 ⊢
        by_cases h : o = some true
        · subst h
          simp
        · simp [h, h2]

/-! ### Claim C6 -/

theorem chain_run_clock (ops : List ClockOp) :
    ∀ c : Nat, List.Chain' (· < ·) (c :: run_clock c ops) := by
  induction ops with
  | nil => intro c; simp [run_clock]
  | cons op ops ih =>
      intro c
      cases op with
      | tick =>
          rw [run_clock]
          exact List.chain'_cons.mpr ⟨Nat.lt_succ_self c, ih _⟩
      | observe t =>
          rw [run_clock]
          exact List.chain'_cons.mpr
            ⟨Nat.lt_succ_of_le (Nat.le_max_left c t), ih _⟩

/-- Claim C6: a tick increments the counter by one and returns it, an
observation sets the counter to max(current, received) + 1 and returns it,
and over any serialized sequence of calls the returned values form a strictly
increasing chain (starting strictly above the initial counter). -/
theorem C6_lamport_clock :
    (∀ c, increment_lamport_clock c = c + 1) ∧
    (∀ c t, update_lamport_clock c t = max c t + 1) ∧
    (∀ (c : Nat) (ops : List ClockOp), List.Chain' (· < ·) (c :: run_clock c ops)) :=
  ⟨fun _ => rfl, fun _ _ => rfl, fun c ops => chain_run_clock ops c⟩

/-! ### Claim C10 -/

/-- Claim C10: when voting is not active, PublishResults builds the votes
list and then returns Python None (no structured record); only the
voting-active gate produces the structured failure response. -/
theorem C10_publish_results_returns_none (voting_active : Bool) (db : List Voter) :
    (voting_active = false → PublishResults voting_active db = (none, collect_votes db)) ∧
    (voting_active = true → PublishResults voting_active db =
      (some ⟨false, "Cannot publish results while voting is active"⟩, [])) := by
  constructor <;> intro h <;> subst h <;> rfl

/-- Witness for claim C10 at a concrete state: voting inactive over the
initial registry. -/
theorem C10_publish_results_returns_none_witness :
    PublishResults false init_voters_db = (none, collect_votes init_voters_db) :=
  (C10_publish_results_returns_none false init_voters_db).1 rfl

/-! ### Helper lemmas about the registry section -/

theorem process_vote_db_not_found (vid : Nat) (vname cand : String) (rep : Bool) :
    ∀ db : List Voter, find_voter vid vname db = none →
      process_vote_db vid vname cand rep db = (⟨false, "Voter not found"⟩, db) := by
  intro db
  induction db with
  | nil => intro _; rfl
  | cons v rest ih =>
      intro h
      by_cases hv : v.id = vid ∧ v.name = vname
      · exfalso
        rw [find_voter, List.find?_cons_of_pos _ (by simpa using hv)] at h
        exact Option.some_ne_none v h
      · have hrest : find_voter vid vname rest = none := by
          rw [find_voter, List.find?_cons_of_neg _ (by simpa using hv)] at h
          exact h
        simp [process_vote_db, hv, ih hrest]

theorem process_vote_db_already (vid : Nat) (vname cand : String) (rep : Bool) :
    ∀ (db : List Voter) (v : Voter), find_voter vid vname db = some v →
      v.has_voted = true →
      process_vote_db vid vname cand rep db = (⟨false, "Already voted"⟩, db) := by
  intro db
  induction db with
  | nil => intro v h _; simp [find_voter] at h
  | cons w rest ih =>
      intro v h hvoted
      by_cases hw : w.id = vid ∧ w.name = vname
      · rw [find_voter, List.find?_cons_of_pos _ (by simpa using hw)] at h
        obtain rfl : w = v := Option.some.inj h
        simp [process_vote_db, hw, hvoted]
      · have hrest : find_voter vid vname rest = some v := by
          rw [find_voter, List.find?_cons_of_neg _ (by simpa using hw)] at h
          exact h
        simp [process_vote_db, hw, ih v hrest hvoted]

theorem process_vote_db_success (vid : Nat) (vname cand : String) (rep : Bool) :
    ∀ db : List Voter, (process_vote_db vid vname cand rep db).1.success = true →
      ∀ (cand2 : String) (rep2 : Bool),
        (process_vote_db vid vname cand2 rep2
          (process_vote_db vid vname cand rep db).2).1 = ⟨false, "Already voted"⟩ := by
  intro db
  induction db with
  | nil => intro h; simp [process_vote_db] at h
  | cons v rest ih =>
      intro h cand2 rep2
      by_cases hv : v.id = vid ∧ v.name = vname
      · by_cases hvot : v.has_voted
        · simp [process_vote_db, hv, hvot] at h
        · cases rep with
          | false => simp [process_vote_db, hv, hvot] at h
          | true => simp [process_vote_db, hv, hvot]
      · simp [process_vote_db, hv] at h ⊢
        exact ih h cand2 rep2

theorem process_vote_db_rollback (vid : Nat) (vname cand : String) :
    ∀ (db : List Voter) (v : Voter), find_voter vid vname db = some v →
      v.has_voted = false →
      (process_vote_db vid vname cand false db).1 = ⟨false, "Replication failed"⟩ ∧
      find_voter vid vname (process_vote_db vid vname cand false db).2 =
        some { v with has_voted := false, vote := none } ∧
      ∀ cand2 : String,
        (process_vote_db vid vname cand2 true
          (process_vote_db vid vname cand false db).2).1 =
          ⟨true, "Vote recorded successfully"⟩ := by
  intro db
  induction db with
  | nil => intro v h _; simp [find_voter] at h
  | cons w rest ih =>
      intro v h hnv
      by_cases hw : w.id = vid ∧ w.name = vname
      · rw [find_voter, List.find?_cons_of_pos _ (by simpa using hw)] at h
        obtain rfl : w = v := Option.some.inj h
        refine ⟨by simp [process_vote_db, hw, hnv], ?_, ?_⟩
        · simp [process_vote_db, hw, hnv, find_voter]
        · intro cand2
          simp [process_vote_db, hw, hnv]
      · have hrest : find_voter vid vname rest = some v := by
          rw [find_voter, List.find?_cons_of_neg _ (by simpa using hw)] at h
          exact h
        obtain ⟨ih1, ih2, ih3⟩ := ih v hrest hnv
        refine ⟨?_, ?_, ?_⟩
        · simpa [process_vote_db, hw] using ih1
        · rw [show (process_vote_db vid vname cand false (w :: rest)).2 =
              w :: (process_vote_db vid vname cand false rest).2 from by
            simp [process_vote_db, hw]]
          rw [find_voter, List.find?_cons_of_neg _ (by simpa using hw)]
          exact ih2
        · intro cand2
          simpa [process_vote_db, hw] using ih3 cand2

/-! ### Claim C2 -/

/-- Claim C2: under the serialized registry section, a located voter whose
has_voted flag is already set terminates the admission with the Already
voted failure and an unchanged registry; a session whose (id, name) pair
matches no record terminates with Voter not found and an unchanged registry;
and after a successful commit, a second admission for the same voter always
terminates Already voted, so at most one commit can be in effect. -/
theorem C2_vote_admission_guards (db : List Voter) (vid : Nat) (vname cand : String)
    (rep : Bool) :
    (find_voter vid vname db = none →
      process_vote_db vid vname cand rep db = (⟨false, "Voter not found"⟩, db)) ∧
    (∀ v : Voter, find_voter vid vname db = some v → v.has_voted = true →
      process_vote_db vid vname cand rep db = (⟨false, "Already voted"⟩, db)) ∧
    (∀ (cand2 : String) (rep2 : Bool),
      (process_vote_db vid vname cand rep db).1.success = true →
      (process_vote_db vid vname cand2 rep2
        (process_vote_db vid vname cand rep db).2).1 = ⟨false, "Already voted"⟩) :=
  ⟨process_vote_db_not_found vid vname cand rep db,
   fun v h hv => process_vote_db_already vid vname cand rep db v h hv,
   fun cand2 rep2 h => process_vote_db_success vid vname cand rep db h cand2 rep2⟩

/-- Witness for claim C2: on a registry where voter 1 has already voted, a
second admission for voter 1 fails with Already voted and the registry is
unchanged. -/
theorem C2_vote_admission_guards_witness :
    (find_voter 1 "Alice" voted_db = some alice_voted ∧ alice_voted.has_voted = true) ∧
    process_vote_db 1 "Alice" "Candidate B" true voted_db =
      (⟨false, "Already voted"⟩, voted_db) :=
  ⟨⟨by decide, by decide⟩,
   (C2_vote_admission_guards voted_db 1 "Alice" "Candidate B" true).2.1 alice_voted
     (by decide) (by decide)⟩

/-! ### Claim C3 -/

/-- Claim C3: when the registry commit succeeds but replication fails, the
admission reports the Replication failed failure and the commit is rolled
back — the voter record afterwards has has_voted = false and vote = none —
and a resubmitted vote for the same voter succeeds once replication
succeeds. -/
theorem C3_replication_rollback (db : List Voter) (vid : Nat) (vname cand : String)
    (v : Voter) (hfind : find_voter vid vname db = some v)
    (hnv : v.has_voted = false) :
    (process_vote_db vid vname cand false db).1 = ⟨false, "Replication failed"⟩ ∧
    find_voter vid vname (process_vote_db vid vname cand false db).2 =
      some { v with has_voted := false, vote := none } ∧
    ∀ cand2 : String,
      (process_vote_db vid vname cand2 true
        (process_vote_db vid vname cand false db).2).1 =
        ⟨true, "Vote recorded successfully"⟩ :=
  process_vote_db_rollback vid vname cand db v hfind hnv

/-- Witness for claim C3: replication failure for a vote by voter 2 on the
sample registry rolls the commit back and leaves the voter able to vote
again. -/
theorem C3_replication_rollback_witness :
    (find_voter 2 "Bob" voted_db = some ⟨2, "Bob", false, none⟩ ∧
      (⟨2, "Bob", false, none⟩ : Voter).has_voted = false) ∧
    ((process_vote_db 2 "Bob" "Candidate C" false voted_db).1 =
        ⟨false, "Replication failed"⟩ ∧
      find_voter 2 "Bob" (process_vote_db 2 "Bob" "Candidate C" false voted_db).2 =
        some ⟨2, "Bob", false, none⟩ ∧
      ∀ cand2 : String,
        (process_vote_db 2 "Bob" cand2 true
          (process_vote_db 2 "Bob" "Candidate C" false voted_db).2).1 =
          ⟨true, "Vote recorded successfully"⟩) :=
  ⟨⟨by decide, by decide⟩,
   C3_replication_rollback voted_db 2 "Bob" "Candidate C" ⟨2, "Bob", false, none⟩
     (by decide) (by decide)⟩

/-! ### Claim C9 -/

/-- Claim C9: registering an existing name succeeds with the existing id and
mutates nothing; registering a new name (with replication succeeding)
appends a record with has_voted = false and id one greater than the current
registry size; and registering the same name twice returns the same id the
second time and leaves the registry exactly as after the first
registration. -/
theorem C9_register_idempotent (db : List Voter) (vname : String) (rep : Bool) :
    (∀ v : Voter, find_by_name vname db = some v →
      Register vname rep db = (⟨true, some v.id, "Voter already registered"⟩, db)) ∧
    (find_by_name vname db = none →
      Register vname true db =
        (⟨true, some (db.length + 1), "Registration successful"⟩,
         db ++ [⟨db.length + 1, vname, false, none⟩])) ∧
    (∀ rep2 : Bool,
      (Register vname rep2 (Register vname true db).2).1.id =
        (Register vname true db).1.id ∧
      (Register vname rep2 (Register vname true db).2).2 =
        (Register vname true db).2) := by
  refine ⟨?_, ?_, ?_⟩
  · intro v h
    simp [Register, h]
  · intro h
    simp [Register, h]
  · intro rep2
    cases hfind : find_by_name vname db with
    | some v => simp [Register, hfind]
    | none =>
        have hfind2 : find_by_name vname
            (db ++ [⟨db.length + 1, vname, false, none⟩]) =
            some ⟨db.length + 1, vname, false, none⟩ := by
          simp [find_by_name] at hfind
          simp [find_by_name, List.find?_append]
          exact Or.inr hfind
        simp [Register, hfind, hfind2]

/-- Witness for claim C9: registering the already present name Alice on the
initial registry returns her existing id 1 and leaves the registry
untouched. -/
theorem C9_register_idempotent_witness :
    find_by_name "Alice" init_voters_db = some ⟨1, "Alice", false, none⟩ ∧
    Register "Alice" true init_voters_db =
      (⟨true, some 1, "Voter already registered"⟩, init_voters_db) :=
  ⟨by decide,
   (C9_register_idempotent init_voters_db "Alice" true).1 ⟨1, "Alice", false, none⟩
     (by decide)⟩

/-! ### Helper lemmas about decimal renderings -/

theorem digit_char_ne_underscore : ∀ d, d < 10 → Nat.digitChar d ≠ '_' := by
  decide

theorem digit_char_inj : ∀ a < 10, ∀ b < 10, Nat.digitChar a = Nat.digitChar b →
    a = b := by
  decide

theorem nat_chars_aux_digit (fuel : Nat) :
    ∀ (n : Nat) (acc : List Char),
      (∀ c ∈ acc, ∃ d, d < 10 ∧ c = Nat.digitChar d) →
      ∀ c ∈ nat_chars_aux fuel n acc, ∃ d, d < 10 ∧ c = Nat.digitChar d := by
  induction fuel with
  | zero => intro n acc hacc c hc; exact hacc c hc
  | succ fuel ih =>
      intro n acc hacc c hc
      rw [nat_chars_aux] at hc
      split at hc
      · rename_i hn
        obtain rfl | hmem := List.mem_cons.mp hc
        · exact ⟨n, hn, rfl⟩
        · exact hacc c hmem
      · refine ih (n / 10) _ ?_ c hc
        intro c2 hc2
        obtain rfl | hmem := List.mem_cons.mp hc2
        · exact ⟨n % 10, Nat.mod_lt n (by norm_num), rfl⟩
        · exact hacc c2 hmem

theorem nat_chars_no_underscore (n : Nat) : ∀ c ∈ nat_chars n, c ≠ '_' := by
  intro c hc
  obtain ⟨d, hd, rfl⟩ := nat_chars_aux_digit (n + 1) n [] (by simp) c hc
  exact digit_char_ne_underscore d hd

theorem nat_chars_aux_eq_digits (fuel : Nat) :
    ∀ (n : Nat) (acc : List Char), 0 < n → n < 10 ^ fuel →
      nat_chars_aux fuel n acc =
        ((Nat.digits 10 n).map Nat.digitChar).reverse ++ acc := by
  induction fuel with
  | zero =>
      intro n acc hpos hlt
      simp at hlt
      omega
  | succ fuel ih =>
      intro n acc hpos hlt
      rw [nat_chars_aux]
      by_cases hn : n < 10
      · rw [if_pos hn]
        have hd : Nat.digits 10 n = [n] := by
          rw [Nat.digits_def' (by norm_num : (1:ℕ) < 10) hpos,
            Nat.mod_eq_of_lt hn, Nat.div_eq_of_lt hn]
          simp
        simp [hd]
      · rw [if_neg hn]
        have hpos2 : 0 < n / 10 := Nat.div_pos (le_of_not_lt hn) (by norm_num)
        have hlt2 : n / 10 < 10 ^ fuel := by
          rw [Nat.div_lt_iff_lt_mul (by norm_num : (0:ℕ) < 10)]
          calc n < 10 ^ (fuel + 1) := hlt
            _ = 10 ^ fuel * 10 := by ring
        rw [ih (n / 10) _ hpos2 hlt2,
          Nat.digits_def' (by norm_num : (1:ℕ) < 10) hpos]
        simp

theorem nat_chars_eq_digits (n : Nat) (hpos : 0 < n) :
    nat_chars n = ((Nat.digits 10 n).map Nat.digitChar).reverse := by
  have hlt : n < 10 ^ (n + 1) :=
    lt_of_lt_of_le (Nat.lt_pow_self (by norm_num) n)
      (Nat.pow_le_pow_right (by norm_num) (Nat.le_succ n))
  rw [nat_chars, nat_chars_aux_eq_digits (n + 1) n [] hpos hlt]
  simp

theorem nat_chars_pos_ne_zero_chars (n : Nat) (hn : 0 < n) : nat_chars n ≠ ['0'] := by
  rw [nat_chars_eq_digits n hn]
  intro h
  have h2 := congrArg List.reverse h
  rw [List.reverse_reverse] at h2
  cases hdig : Nat.digits 10 n with
  | nil => rw [hdig] at h2; simp at h2
  | cons d t =>
      cases t with
      | nil =>
          rw [hdig] at h2
          simp at h2
          have hd10 : d < 10 := Nat.digits_lt_base (by norm_num)
            (by rw [hdig]; exact List.mem_cons_self d [])
          have hd0 : d = 0 := digit_char_inj d hd10 0 (by norm_num) h2
          have hofd := Nat.ofDigits_digits 10 n
          rw [hdig, hd0] at hofd
          simp [Nat.ofDigits] at hofd
          omega
      | cons d2 t2 => rw [hdig] at h2; simp at h2

theorem map_digit_char_inj :
    ∀ l1 l2 : List Nat, (∀ d ∈ l1, d < 10) → (∀ d ∈ l2, d < 10) →
      l1.map Nat.digitChar = l2.map Nat.digitChar → l1 = l2 := by
  intro l1
  induction l1 with
  | nil =>
      intro l2 _ _ h
      cases l2 with
      | nil => rfl
      | cons b t2 => simp at h
  | cons a t ih =>
      intro l2 h1 h2 h
      cases l2 with
      | nil => simp at h
      | cons b t2 =>
          simp only [List.map_cons, List.cons.injEq] at h
          have ha : a < 10 := h1 a (List.mem_cons_self a t)
          have hb : b < 10 := h2 b (List.mem_cons_self b t2)
          have hab : a = b := digit_char_inj a ha b hb h.1
          subst hab
          rw [ih t2 (fun d hd => h1 d (List.mem_cons_of_mem a hd))
            (fun d hd => h2 d (List.mem_cons_of_mem a hd)) h.2]

theorem nat_chars_inj {m n : Nat} (h : nat_chars m = nat_chars n) : m = n := by
  rcases Nat.eq_zero_or_pos m with rfl | hm
  · rcases Nat.eq_zero_or_pos n with rfl | hn
    · rfl
    · exact absurd h.symm (nat_chars_pos_ne_zero_chars n hn)
  · rcases Nat.eq_zero_or_pos n with rfl | hn
    · exact absurd h (nat_chars_pos_ne_zero_chars m hm)
    · rw [nat_chars_eq_digits m hm, nat_chars_eq_digits n hn] at h
      have h2 := List.reverse_injective h
      have h3 : Nat.digits 10 m = Nat.digits 10 n :=
        map_digit_char_inj _ _
          (fun d hd => Nat.digits_lt_base (by norm_num) hd)
          (fun d hd => Nat.digits_lt_base (by norm_num) hd) h2
      have h4 := congrArg (Nat.ofDigits 10) h3
      rwa [Nat.ofDigits_digits, Nat.ofDigits_digits] at h4

theorem append_underscore_cancel :
    ∀ xs ys xs2 ys2 : List Char, ('_' ∉ xs) → ('_' ∉ xs2) →
      xs ++ '_' :: ys = xs2 ++ '_' :: ys2 → xs = xs2 ∧ ys = ys2 := by
  intro xs
  induction xs with
  | nil =>
      intro ys xs2 ys2 _ h2 h
      cases xs2 with
      | nil =>
          simp at h
          exact ⟨rfl, h⟩
      | cons c t =>
          simp at h
          exact absurd (List.mem_cons.mpr (Or.inl h.1) : '_' ∈ c :: t) h2
  | cons a t ih =>
      intro ys xs2 ys2 h1 h2 h
      cases xs2 with
      | nil =>
          simp at h
          exact absurd (List.mem_cons.mpr (Or.inl h.1.symm) : '_' ∈ a :: t) h1
      | cons b t2 =>
          simp only [List.cons_append, List.cons.injEq] at h
          have ht1 : '_' ∉ t := fun hm => h1 (List.mem_cons_of_mem a hm)
          have ht2 : '_' ∉ t2 := fun hm => h2 (List.mem_cons_of_mem b hm)
          obtain ⟨he, hy⟩ := ih ys t2 ys2 ht1 ht2 h.2
          exact ⟨by rw [h.1, he], hy⟩

theorem session_id_string_data (v t : Nat) :
    (session_id_string v t).data =
      "session".data ++ ('_' :: nat_chars v) ++ '_' :: nat_chars t := by
  simp [session_id_string, String.data_append]

theorem session_id_string_inj (v1 t1 v2 t2 : Nat)
    (h : session_id_string v1 t1 = session_id_string v2 t2) : v1 = v2 ∧ t1 = t2 := by
  have hd := congrArg String.data h
  rw [session_id_string_data, session_id_string_data, List.append_assoc,
    List.append_assoc] at hd
  have hd2 := List.append_cancel_left hd
  rw [List.cons_append, List.cons_append] at hd2
  injection hd2 with h5 hd4
  obtain ⟨hv, ht⟩ := append_underscore_cancel (nat_chars v1) (nat_chars t1)
    (nat_chars v2) (nat_chars t2)
    (fun hm => nat_chars_no_underscore v1 _ hm rfl)
    (fun hm => nat_chars_no_underscore v2 _ hm rfl) hd4
  exact ⟨nat_chars_inj hv, nat_chars_inj ht⟩

/-! ### Claim C8 -/

/-- Claim C8 fails on the code: the session identifier is deterministic in
the voter id and the integer clock second, so a sequence of two
session-creation events by the same voter within the same second — two
distinct events — yields a list of returned identifiers that is not
pairwise distinct. -/
theorem C8_counterexample :
    ¬ (([(1, 100), (1, 100)] : List (Nat × Nat)).map
        (fun p => session_id_string p.1 p.2)).Pairwise (· ≠ ·) := by
  intro h
  rw [List.map_cons, List.map_cons, List.map_nil] at h
  rcases List.pairwise_cons.mp h with ⟨h1, -⟩
  exact h1 _ (List.mem_singleton_self _) rfl

/-- Claim C8 (amended): session identifiers are distinct whenever the
(voter id, integer login second) pairs of the two session-creation events
differ; only two logins by the same voter within the same clock second
collide. -/
theorem C8_session_ids_distinct (v1 t1 v2 t2 : Nat) (h : (v1, t1) ≠ (v2, t2)) :
    session_id_string v1 t1 ≠ session_id_string v2 t2 := by
  intro he
  obtain ⟨hv, ht⟩ := session_id_string_inj v1 t1 v2 t2 he
  exact h (by rw [hv, ht])

/-- Witness for the amended claim C8: logins by voters 1 and 2 during the
same second receive distinct identifiers. -/
theorem C8_session_ids_distinct_witness :
    ((1, 100) : Nat × Nat) ≠ (2, 100) ∧
    session_id_string 1 100 ≠ session_id_string 2 100 :=
  ⟨by decide, C8_session_ids_distinct 1 100 2 100 (by decide)⟩

/-! ### Helper lemmas for the coordinator invariant -/

theorem process_vote_db_mem (vid : Nat) (vname cand : String) (rep : Bool) :
    ∀ (db : List Voter) (v : Voter), v ∈ (process_vote_db vid vname cand rep db).2 →
      v ∈ db ∨ (∃ u, u ∈ db ∧ v = { u with has_voted := true, vote := some cand }) ∨
        ∃ u, u ∈ db ∧ v = { u with has_voted := false, vote := none } := by
  intro db
  induction db with
  | nil => intro v hv; simp [process_vote_db] at hv
  | cons w rest ih =>
      intro v hv
      by_cases hw : w.id = vid ∧ w.name = vname
      · by_cases hvot : w.has_voted
        · rw [show (process_vote_db vid vname cand rep (w :: rest)).2 = w :: rest from by
            simp [process_vote_db, hw, hvot]] at hv
          exact Or.inl hv
        · cases rep with
          | true =>
              rw [show (process_vote_db vid vname cand true (w :: rest)).2 =
                  { w with has_voted := true, vote := some cand } :: rest from by
                simp [process_vote_db, hw, hvot]] at hv
              obtain rfl | hv := List.mem_cons.mp hv
              · exact Or.inr (Or.inl ⟨w, List.mem_cons_self w rest, rfl⟩)
              · exact Or.inl (List.mem_cons_of_mem w hv)
          | false =>
              rw [show (process_vote_db vid vname cand false (w :: rest)).2 =
                  { w with has_voted := false, vote := none } :: rest from by
                simp [process_vote_db, hw, hvot]] at hv
              obtain rfl | hv := List.mem_cons.mp hv
              · exact Or.inr (Or.inr ⟨w, List.mem_cons_self w rest, rfl⟩)
              · exact Or.inl (List.mem_cons_of_mem w hv)
      · rw [show (process_vote_db vid vname cand rep (w :: rest)).2 =
            w :: (process_vote_db vid vname cand rep rest).2 from by
          simp [process_vote_db, hw]] at hv
        obtain rfl | hv := List.mem_cons.mp hv
        · exact Or.inl (List.mem_cons_self v rest)
        · rcases ih v hv with hmem | ⟨u, hu, rfl⟩ | ⟨u, hu, rfl⟩
          · exact Or.inl (List.mem_cons_of_mem w hmem)
          · exact Or.inr (Or.inl ⟨u, List.mem_cons_of_mem w hu, rfl⟩)
          · exact Or.inr (Or.inr ⟨u, List.mem_cons_of_mem w hu, rfl⟩)

theorem process_vote_db_voter_ok (cands : List String) (vid : Nat)
    (vname cand : String) (rep : Bool) (hcand : cand ∈ cands) (db : List Voter)
    (h : ∀ v ∈ db, VoterOk cands v) :
    ∀ v ∈ (process_vote_db vid vname cand rep db).2, VoterOk cands v := by
  intro v hv
  rcases process_vote_db_mem vid vname cand rep db v hv with
    hmem | ⟨u, hu, rfl⟩ | ⟨u, hu, rfl⟩
  · exact h v hmem
  · intro _; exact ⟨cand, rfl, hcand⟩
  · intro hcon; exact absurd hcon Bool.false_ne_true

theorem register_mem (vname : String) (rep : Bool) (db : List Voter) :
    ∀ v ∈ (Register vname rep db).2, v ∈ db ∨ v.has_voted = false := by
  intro v hv
  cases hfind : find_by_name vname db with
  | some w =>
      rw [show (Register vname rep db).2 = db from by simp [Register, hfind]] at hv
      exact Or.inl hv
  | none =>
      cases rep with
      | false =>
          rw [show (Register vname false db).2 = db from by simp [Register, hfind]] at hv
          exact Or.inl hv
      | true =>
          rw [show (Register vname true db).2 =
              db ++ [⟨db.length + 1, vname, false, none⟩] from by
            simp [Register, hfind]] at hv
          rcases List.mem_append.mp hv with hmem | hmem
          · exact Or.inl hmem
          · rw [List.mem_singleton] at hmem
            exact Or.inr (by rw [hmem])

theorem heap_pop_mem (q : List QueueEntry) (e : QueueEntry) (rest : List QueueEntry)
    (h : heap_pop q = some (e, rest)) : e ∈ q ∧ ∀ x ∈ rest, x ∈ q := by
  cases q with
  | nil => simp [heap_pop] at h
  | cons a l =>
      rw [heap_pop] at h
      have hp := Option.some.inj h
      have he : min_entry a l = e := congrArg Prod.fst hp
      have hrest : (a :: l).erase (min_entry a l) = rest := congrArg Prod.snd hp
      constructor
      · rw [← he]; exact min_entry_mem l a
      · intro x hx
        rw [← hrest] at hx
        exact List.mem_of_mem_erase hx

theorem admit_vote_inv (e : QueueEntry) (rep : Bool) (s : ServerState)
    (hdb : ∀ v ∈ s.voters_db, VoterOk s.candidates v)
    (hq : ∀ x ∈ s.vote_queue, x.request.candidate ∈ s.candidates)
    (hcand : e.request.candidate ∈ s.candidates) :
    Inv (admit_vote e rep s) := by
  unfold admit_vote
  split
  · exact ⟨hdb, hq⟩
  · split
    · exact ⟨hdb, hq⟩
    · split
      · split
        · exact ⟨hdb, hq⟩
        · refine ⟨?_, ?_⟩
          · intro v hv
            exact process_vote_db_voter_ok s.candidates _ _ _ rep hcand
              s.voters_db hdb v hv
          · intro x hx
            exact hq x hx
      · refine ⟨?_, ?_⟩
        · intro v hv
          exact process_vote_db_voter_ok s.candidates _ _ _ rep hcand
            s.voters_db hdb v hv
        · intro x hx
          exact hq x hx

theorem server_step_inv (s : ServerState) (op : ServerOp) (h : Inv s) :
    Inv (server_step s op) := by
  obtain ⟨hdb, hq⟩ := h
  cases op with
  | register vname rep =>
      refine ⟨?_, ?_⟩
      · intro v hv
        rcases register_mem vname rep s.voters_db v hv with hmem | hfalse
        · exact hdb v hmem
        · intro hcon
          rw [hfalse] at hcon
          exact absurd hcon Bool.false_ne_true
      · intro x hx
        exact hq x hx
  | login vname vid now =>
      simp only [server_step]
      split
      · exact ⟨hdb, hq⟩
      · exact ⟨hdb, hq⟩
  | vote sid cand ts ct =>
      simp only [server_step]
      split
      · rename_i hcand
        split
        · exact ⟨hdb, hq⟩
        · refine ⟨fun v hv => hdb v hv, ?_⟩
          intro x hx
          obtain rfl | hx := List.mem_cons.mp hx
          · exact hcand
          · exact hq x hx
      · exact ⟨hdb, hq⟩
  | start_vote => exact ⟨hdb, hq⟩
  | stop_vote => exact ⟨hdb, hq⟩
  | set_timer t => exact ⟨hdb, hq⟩
  | process_next rep =>
      simp only [server_step]
      split
      · exact ⟨hdb, hq⟩
      · rename_i e rest hpop
        obtain ⟨he, hrest⟩ := heap_pop_mem s.vote_queue e rest hpop
        exact admit_vote_inv e rep { s with vote_queue := rest }
          (fun v hv => hdb v hv)
          (fun x hx => hq x (hrest x hx))
          (hq e he)
  | requeue_next =>
      simp only [server_step]
      split
      · exact ⟨hdb, hq⟩
      · rename_i e rest hpop
        obtain ⟨he, hrest⟩ := heap_pop_mem s.vote_queue e rest hpop
        split
        · exact ⟨fun v hv => hdb v hv, fun x hx => hq x (hrest x hx)⟩
        · refine ⟨fun v hv => hdb v hv, ?_⟩
          intro x hx
          obtain rfl | hx := List.mem_cons.mp hx
          · exact hq e he
          · exact hq x (hrest x hx)

theorem init_state_inv : Inv init_state := by
  constructor
  · intro v hv hvoted
    have hfalse : ∀ w ∈ init_voters_db, w.has_voted = false := by decide
    rw [hfalse v hv] at hvoted
    exact absurd hvoted Bool.false_ne_true
  · intro e he
    simp [init_state] at he

/-! ### Claim C7 -/

/-- Claim C7: in every state reachable by a serialized sequence of
coordinator operations from the initial state, a voter record with
has_voted = true has its chosen candidate set to a member of the candidate
list; candidate validation at submission, commit, rollback and registration
all preserve the invariant. -/
theorem C7_ballot_invariant (ops : List ServerOp) :
    ∀ v ∈ (server_run init_state ops).voters_db, v.has_voted = true →
      ∃ c, v.vote = some c ∧ c ∈ (server_run init_state ops).candidates := by
  have hrun : ∀ (l : List ServerOp) (s : ServerState), Inv s →
      Inv (l.foldl server_step s) := by
    intro l
    induction l with
    | nil => intro s hs; exact hs
    | cons op t ih => intro s hs; exact ih (server_step s op) (server_step_inv s op hs)
  exact fun v hv hvt => (hrun ops init_state init_state_inv).1 v hv hvt

/-- Witness for claim C7: after Alice logs in, voting starts, she votes for
Candidate A and the scheduler admits the vote, her record has has_voted set
and its candidate belongs to the candidate list. -/
theorem C7_ballot_invariant_witness :
    ((⟨1, "Alice", true, some "Candidate A"⟩ : Voter) ∈
        (server_run init_state demo_ops).voters_db ∧
      (⟨1, "Alice", true, some "Candidate A"⟩ : Voter).has_voted = true) ∧
    ∃ c, (⟨1, "Alice", true, some "Candidate A"⟩ : Voter).vote = some c ∧
      c ∈ (server_run init_state demo_ops).candidates :=
  ⟨⟨by decide, by decide⟩,
   C7_ballot_invariant demo_ops ⟨1, "Alice", true, some "Candidate A"⟩
     (by decide) (by decide)⟩

end DistVote
